import Mathlib

/-
Verification of the error-annotation chain core of the merry library
(github.com/ansel1/merry, v1 and v2 packages).

The embedding models Go error values as an inductive type `Err`:

* `Err.base ty id msg` is a plain terminal error (`errors.New`, or a
  foreign error type).  `ty` models the Go dynamic type of the error
  (0 for `*errors.errorString`; other numbers for user-defined error
  types such as `redError` in the tests), and `id` models the
  allocation identity: two calls of `errors.New` always return
  distinct pointers, so distinct constructions carry distinct ids.
  Go interface equality (`err == target`) is modelled by structural
  equality of `Err`, which is faithful as long as distinct
  allocations are given distinct ids.
* `Err.withValue err key val` is the library's annotation node
  (`*errWithValue` in v2/impl.go, `*errImpl`/`*merryErr` in the other
  revisions; all three are the same struct `{err error; key, value
  interface{}}`).
* `Err.withCause err cause` is `*errWithCause` from v2/impl.go.
* `Err.unwrapper err` is a foreign wrapper error which implements
  `Unwrap() error` but none of the library interfaces (the
  `UnwrapperError` type used throughout the tests).

Annotation payloads (`value interface{}`) are modelled by the sum type
`Val`: untyped nil, string, int, `[]uintptr` stack, `[]string`
formatted stack, or a nested error (used by the v1 revisions, which
store the cause as an ordinary value under `errKeyCause`).

Nil Go errors are modelled with `Option Err` at the API surface:
`none` is the nil error.
-/

namespace Merry

/-- Annotation keys: the `errKey` enumeration of impl.go (the union of the
key sets of all revisions: v2's enum stops at `forceCapture` and the v1
revisions also have `cause` and `formattedStack`), plus `user` for
arbitrary caller-supplied comparable keys. -/
inductive Key where
  | noneKey
  | stack
  | message
  | httpCode
  | userMessage
  | cause
  | formattedStack
  | forceCapture
  | user (s : String)
deriving DecidableEq, Repr

/-- Go dynamic types of error values, used to model `errors.As` targets:
`goerr t` is the type of a terminal error (`t = 0` for `*errors.errorString`),
and the three wrapper types of the library each have their own tag. -/
inductive ETy where
  | goerr (t : Nat)
  | valT
  | causeT
  | unwT
deriving DecidableEq, Repr

mutual
/-- Go error values, see the header comment. -/
inductive Err where
  | base (ty id : Nat) (msg : String)
  | withValue (err : Err) (key : Key) (val : Val)
  | withCause (err : Err) (cause : Err)
  | unwrapper (err : Err)
deriving DecidableEq, Repr

/-- Annotation payloads (`value interface{}`). -/
inductive Val where
  | vnil
  | str (s : String)
  | int (n : Int)
  | stack (frames : List Nat)
  | fstack (frames : List String)
  | errv (e : Err)
deriving DecidableEq, Repr
end

mutual
/-- Size measure on errors, used for termination of the chain walkers. -/
def esize : Err → Nat
  | .base _ _ _ => 1
  | .withValue e _ v => esize e + vsize v + 1
  | .withCause e c => esize e + esize c + 1
  | .unwrapper e => esize e + 1

/-- Size measure on payloads (counts through nested error values). -/
def vsize : Val → Nat
  | .errv e => esize e + 1
  | _ => 1
end

lemma esize_pos (e : Err) : 0 < esize e := by
  cases e <;> simp [esize]

lemma vsize_pos (v : Val) : 0 < vsize v := by
  cases v <;> simp [vsize]

/-! ## Unwrapping

`internal.Unwrap` (v2/internal) is `errors.Unwrap`: it calls the
`Unwrap() error` method of the argument if it has one.  The library's
annotation nodes return their wrapped error (`errWithValue.Unwrap`,
v2/impl.go:69-71), the foreign `UnwrapperError` wrapper returns its
inner error, terminal errors have no `Unwrap` method, and
`errWithCause.Unwrap` (v2/impl.go:81-110) first skips any directly
nested `errWithCause`s, unwraps the first non-cause error it finds,
and re-bundles the result with its own cause — returning the cause
itself once the wrapped chain is exhausted. -/

/-- Loop at v2/impl.go:87-93: skip through any directly nested
`errWithCause`s to the first non-`errWithCause` error. -/
def stripCauses : Err → Err
  | .withCause e _ => stripCauses e
  | e => e

/-- Result of the `Unwrap() error` method of a non-`errWithCause` error:
annotation nodes and `UnwrapperError` return the wrapped error, terminal
errors have no such method (`nil`).  `stripCauses` never returns an
`errWithCause`, so the `withCause` branch is unreachable where this is
used (v2/impl.go:97). -/
def unwrapFlat : Err → Option Err
  | .base _ _ _ => none
  | .withValue e _ _ => some e
  | .unwrapper e => some e
  | .withCause _ _ => none

/-- One step of `errors.Unwrap` method dispatch; the `withCause` branch is
`errWithCause.Unwrap` (v2/impl.go:81-110). -/
def unwrapOne : Err → Option Err
  | .base _ _ _ => none
  | .withValue e _ _ => some e
  | .unwrapper e => some e
  | .withCause e c =>
    match unwrapFlat (stripCauses e) with
    | none => some c
    | some m => some (.withCause m c)

lemma stripCauses_esize_le : ∀ (e : Err), esize (stripCauses e) ≤ esize e
  | .base _ _ _ => by simp [stripCauses]
  | .withValue e _ _ => by simp [stripCauses]
  | .withCause e c => by
    have ih := stripCauses_esize_le e
    have := esize_pos c
    simp only [stripCauses, esize]
    omega
  | .unwrapper e => by simp [stripCauses]

lemma unwrapFlat_esize_lt {e u : Err} (h : unwrapFlat e = some u) :
    esize u < esize e := by
  cases e with
  | base ty id msg => simp [unwrapFlat] at h
  | withValue e k v =>
    simp [unwrapFlat] at h
    subst h
    have := vsize_pos v
    simp [esize]; omega
  | withCause e c => simp [unwrapFlat] at h
  | unwrapper e =>
    simp [unwrapFlat] at h
    subst h
    simp [esize]

lemma unwrapOne_esize_lt {e u : Err} (h : unwrapOne e = some u) :
    esize u < esize e := by
  cases e with
  | base ty id msg => simp [unwrapOne] at h
  | withValue e k v =>
    simp [unwrapOne] at h
    subst h
    have := vsize_pos v
    simp [esize]; omega
  | withCause e c =>
    rw [unwrapOne] at h
    rcases hm : unwrapFlat (stripCauses e) with _ | m
    · rw [hm] at h
      simp at h
      subst h
      have := esize_pos e
      simp [esize]; omega
    · rw [hm] at h
      simp at h
      subst h
      have h1 : esize m < esize (stripCauses e) := unwrapFlat_esize_lt hm
      have h2 := stripCauses_esize_le e
      simp [esize]; omega
  | unwrapper e =>
    simp [unwrapOne] at h
    subst h
    simp [esize]

/-! ## Error messages -/

/-- Method `Error() string`.  For annotation nodes this is
`errWithValue.Error` (v2/impl.go:54-61): if the node's key is the message
key and the stored value is a string, return it, otherwise delegate to the
wrapped error.  `errWithCause.Error` (v2/impl.go:116-118) delegates to the
wrapped error, `UnwrapperError.Error` delegates to the inner error, and a
terminal error returns its own message. -/
def errorStr : Err → String
  | .base _ _ msg => msg
  | .withValue e k v =>
    match k, v with
    | .message, .str s => s
    | _, _ => errorStr e
  | .withCause e _ => errorStr e
  | .unwrapper e => errorStr e

/-! ## Identity search: `errors.Is` / `errors.As`

`internal.Is`/`internal.As` are Go's `errors.Is`/`errors.As` (go1.13+).
`errors.Is(err, target)` loops: return true if `err == target`; else if
`err` has an `Is(error) bool` method which returns true; else step to
`Unwrap(err)`, failing when that is nil.  The only library type with an
`Is` method in v2 is `*errWithCause` (v2/impl.go:124-139). -/

/-- Method `errWithCause.Is` (v2/impl.go:124-139): true if the wrapped
error equals the target, or if the wrapped error has its own `Is` method
(i.e. is itself an `errWithCause`) which matches; no unwrapping. -/
def methodIs : Err → Err → Bool
  | .withCause e _, t =>
    if e = t then true
    else
      match e with
      | .withCause _ _ => methodIs e t
      | _ => false
  | _, _ => false

/-- Go's `errors.Is(err, target)` for a non-nil target (all modelled error
types are comparable). -/
def goIs (e t : Err) : Bool :=
  if e = t then true
  else if methodIs e t then true
  else
    match h : unwrapOne e with
    | some u => goIs u t
    | none => false
termination_by esize e
decreasing_by exact unwrapOne_esize_lt h

/-- Dynamic type of an error value, used as `errors.As` target type. -/
def tyOf : Err → ETy
  | .base t _ _ => .goerr t
  | .withValue _ _ _ => .valT
  | .withCause _ _ => .causeT
  | .unwrapper _ => .unwT

/-- Method `errWithCause.As` (v2/impl.go:141-159): if the wrapped error's
type is assignable to the target type, assign it; else delegate to the
wrapped error's own `As` method if it has one (only `*errWithCause` does);
no unwrapping.  Returns the error assigned to the target on success. -/
def methodAs : Err → ETy → Option Err
  | .withCause e _, ty =>
    if tyOf e = ty then some e
    else
      match e with
      | .withCause _ _ => methodAs e ty
      | _ => none
  | _, _ => none

/-- Go's `errors.As(err, target)` where `target` is a pointer of type
`ty`: loops matching the dynamic type, then the node's `As` method, then
unwraps.  Returns the error assigned to the target on success. -/
def goAs (e : Err) (ty : ETy) : Option Err :=
  if tyOf e = ty then some e
  else
    match methodAs e ty with
    | some r => some r
    | none =>
      match h : unwrapOne e with
      | some u => goAs u ty
      | none => none
termination_by esize e
decreasing_by exact unwrapOne_esize_lt h

/-! ## Value lookup (v2 errors.go, src/unnamed/part_011) -/

/-- Loop body of `Value` (part_011:145-158): iterate through the
library's own annotation nodes checking keys (fast path); on any other
error type fall back to `internal.Unwrap`; nil ends the search. -/
def valueLoop : Err → Key → Option Val
  | .withValue e k v, key => if k = key then some v else valueLoop e key
  | e, key =>
    match h : unwrapOne e with
    | some u => valueLoop u key
    | none => none
termination_by e => esize e
decreasing_by
  · simp [esize]; omega
  · exact unwrapOne_esize_lt h

/-- Function `Value(err, key)` (part_011:143-158): value for `key`, nil if
not set or if `err` is nil. -/
def Value (e : Option Err) (key : Key) : Option Val :=
  match e with
  | none => none
  | some e => valueLoop e key

/-- Loop body of `Values` (part_011:164-180): walk the whole chain with
`internal.Unwrap`, recording the first-seen value for each key of an
annotation node.  The Go map is modelled as a first-seen association
list. -/
def valuesLoop (e : Err) (acc : List (Key × Val)) : List (Key × Val) :=
  let acc' :=
    match e with
    | .withValue _ k v => if (acc.lookup k).isSome then acc else acc ++ [(k, v)]
    | _ => acc
  match h : unwrapOne e with
  | some u => valuesLoop u acc'
  | none => acc'
termination_by esize e
decreasing_by exact unwrapOne_esize_lt h

/-- Function `Values(err)` (part_011:160-180): map of all values attached
to the error; nil (empty) for a nil error. -/
def Values (e : Option Err) : List (Key × Val) :=
  match e with
  | none => []
  | some e => valuesLoop e []

/-- Function `Stack(err)` (part_011:182-187): the `[]uintptr` stack
attached to the error; nil when absent, when the stored value has another
dynamic type (the type assertion fails, e.g. after `NoCaptureStack`), or
when `err` is nil. -/
def Stack (e : Option Err) : Option (List Nat) :=
  match Value e .stack with
  | some (.stack l) => some l
  | _ => none

/-- Function `HTTPCode(err)` (part_011:189-203): 200 for nil, the attached
code if one is attached and non-zero, else 500. -/
def HTTPCode (e : Option Err) : Int :=
  match e with
  | none => 200
  | some err =>
    match valueLoop err .httpCode with
    | some (.int code) => if code = 0 then 500 else code
    | _ => 500

/-- Function `UserMessage(err)` (part_011:205-210): the attached end-user
message string, or "" when absent or when `err` is nil. -/
def UserMessage (e : Option Err) : String :=
  match Value e .userMessage with
  | some (.str s) => s
  | _ => ""

/-- Loop body of `HasStack` (part_011:246-258): walk the chain; an
annotation node whose key is the stack key or the formatted-stack key
means a stack capture has already been processed (even if the stored
value is nil, as after `NoCaptureStack`). -/
def hasStackLoop : Err → Bool
  | .withValue e k _ =>
    if k = .stack ∨ k = .formattedStack then true else hasStackLoop e
  | e =>
    match h : unwrapOne e with
    | some u => hasStackLoop u
    | none => false
termination_by e => esize e
decreasing_by
  · simp [esize]; omega
  · exact unwrapOne_esize_lt h

/-- Function `HasStack(err)` (part_011:240-258): false for nil. -/
def HasStack (e : Option Err) : Bool :=
  match e with
  | none => false
  | some e => hasStackLoop e

/-! ## Wrappers (v2 wrap.go, src/unnamed/part_012)

A `Wrapper` takes an error and returns a new error wrapping it.  The
`skipCallers` argument only adjusts how many stack frames the runtime
skips when a wrapper captures a stack; frame selection is abstracted
here (the captured stack is a parameter of `captureStack`), so wrappers
are modelled as functions on optional errors. -/

def Wrapper := Option Err → Option Err

/-- Function `Set(err, key, value)` (part_012:158-172): wrap an error with
a single key/value annotation node; nil in, nil out. -/
def Set (e : Option Err) (key : Key) (value : Val) : Option Err :=
  match e with
  | none => none
  | some e => some (.withValue e key value)

/-- Wrapper `SetValue(key, value)` (part_012:30-35). -/
def SetValue (key : Key) (value : Val) : Wrapper :=
  fun e => Set e key value

/-- Wrapper `SetMessage(msg)` (part_012:37-40). -/
def SetMessage (msg : String) : Wrapper :=
  SetValue .message (.str msg)

/-- Wrapper `SetUserMessage(msg)` (part_012:92-95). -/
def SetUserMessage (msg : String) : Wrapper :=
  SetValue .userMessage (.str msg)

/-- Wrapper `SetHTTPCode(statusCode)` (part_012:107-110). -/
def SetHTTPCode (code : Int) : Wrapper :=
  SetValue .httpCode (.int code)

/-- Wrapper `SetStack(stack)` (part_012:112-118). -/
def SetStack (stack : List Nat) : Wrapper :=
  SetValue .stack (.stack stack)

/-- Wrapper `NoCaptureStack()` (part_012:129-132): suppress stack capture
by attaching a stack-keyed node whose value is (untyped) nil. -/
def NoCaptureStack : Wrapper :=
  SetValue .stack .vnil

/-- Wrapper renames of the final v2 wrap.go (absent from src; per the
v2 tests, `WithValue`/`WithMessage`/`WithUserMessage`/`WithHTTPCode` are
the `SetXXX` wrappers above under their final names). -/
def WithValue (key : Key) (value : Val) : Wrapper := SetValue key value

/-- Final name of `SetMessage`. -/
def WithMessage (msg : String) : Wrapper := SetMessage msg

/-- Final name of `SetUserMessage`. -/
def WithUserMessage (msg : String) : Wrapper := SetUserMessage msg

/-- Final name of `SetHTTPCode`. -/
def WithHTTPCode (code : Int) : Wrapper := SetHTTPCode code

/-- Modelled from the spec: the final v2 `WithCause(err)` wrapper
(wrap.go is absent from src).  Per the spec, a causal link "attaches a
second, independent error chain (the cause) to the primary chain", and
per v2/impl.go the node attached is the `errWithCause` struct `{err,
cause}`; nil in, nil out.  The cause argument is taken non-nil (no claim
involves a nil cause). -/
def WithCause (cause : Err) : Wrapper :=
  fun e =>
    match e with
    | none => none
    | some e => some (.withCause e cause)

/-! ## Construction pipeline (v2 errors.go, src/unnamed/part_011) -/

/-- Process-wide configuration: the global stack-capture flag
`captureStacks` read by `StackCaptureEnabled()` and written by
`SetStackCaptureEnabled()` (src/unnamed/part_000:6-16), modelled as an
explicitly passed value. -/
structure Config where
  captureStacks : Bool
deriving DecidableEq, Repr

/-- Function `captureStack(err, skip, force)` (part_011:222-238): return
an error with a stack attached.  No-op if the error already has a stack
or capture is globally disabled (unless forced); nil in, nil out.  The
frames delivered by `runtime.Callers` are abstracted as the `curStack`
parameter. -/
def captureStack (cfg : Config) (curStack : List Nat) (e : Option Err)
    (force : Bool) : Option Err :=
  match e with
  | none => none
  | some err =>
    if ¬force ∧ (¬cfg.captureStacks ∨ hasStackLoop err) then some err
    else Set (some err) .stack (.stack curStack)

/-- Function `apply(err, skip, applyHooks, autocapture, wrappers...)`
(part_011:88-113): nil short-circuits; otherwise run the global hooks
(in order), then the caller's wrappers (in order), then the automatic
stack capture. -/
def apply (cfg : Config) (hooks : List Wrapper) (curStack : List Nat)
    (e : Option Err) (applyHooks autocapture : Bool)
    (wrappers : List Wrapper) : Option Err :=
  match e with
  | none => none
  | some _ =>
    let e1 := if applyHooks then hooks.foldl (fun acc h => h acc) e else e
    let e2 := wrappers.foldl (fun acc w => w acc) e1
    if autocapture then captureStack cfg curStack e2 false else e2

/-- Function `Wrap(err, wrappers...)` = `WrapSkipping(err, 1, ...)`
(part_011:70-86): apply hooks, wrappers, and automatic stack capture. -/
def Wrap (cfg : Config) (hooks : List Wrapper) (curStack : List Nat)
    (e : Option Err) (wrappers : List Wrapper) : Option Err :=
  apply cfg hooks curStack e true true wrappers

/-- Function `New(msg, wrappers...)` (part_011:10-13):
`WrapSkipping(errors.New(msg), 1, wrappers...)`.  `errors.New` always
allocates a fresh error, modelled by the explicit `id`. -/
def New (cfg : Config) (hooks : List Wrapper) (curStack : List Nat)
    (id : Nat) (msg : String) (wrappers : List Wrapper) : Option Err :=
  Wrap cfg hooks curStack (some (.base 0 id msg)) wrappers

/-! ## Rendering (src/unnamed/part_010, src/deprecated.go)

Frame symbolization (`runtime.FuncForPC` + `FileLine`) is external to
the library; it is abstracted as a `resolve` function from a frame
address to the function name, file and line, returning `none` for an
unresolvable frame (such frames are silently skipped). -/

/-- Symbolization oracle for stack frames. -/
def Resolver := Nat → Option (String × String × Int)

/-- Function `Message(err)` (deprecated.go:5-10): just `err.Error()`, ""
for nil. -/
def Message (e : Option Err) : String :=
  match e with
  | none => ""
  | some err => errorStr err

/-- Rendering of one resolvable frame inside `Stacktrace`
(part_010:40-46): the function name, then a newline, a tab, and
"file:line"; unresolvable frames contribute nothing. -/
def frameStr (resolve : Resolver) (fp : Nat) : String :=
  match resolve fp with
  | some (name, file, line) => name ++ "\n\t" ++ file ++ ":" ++ toString line ++ "\n"
  | none => ""

/-- Function `Stacktrace(e)` (part_010:33-51): the error's stacktrace
rendered as a string; "" if the error has no (non-empty) stack. -/
def Stacktrace (resolve : Resolver) (e : Option Err) : String :=
  match Stack e with
  | some l => if l.length > 0 then String.join (l.map (frameStr resolve)) else ""
  | none => ""

/-- Function `Details(e)` (part_010:53-68): `Message(e)`, then the user
message (if set) after a blank line, then the stacktrace (if non-empty)
after a blank line; "" for nil. -/
def Details (resolve : Resolver) (e : Option Err) : String :=
  match e with
  | none => ""
  | some err =>
    let msg := Message (some err)
    let userMsg := UserMessage (some err)
    let msg := if userMsg ≠ "" then msg ++ "\n\nUser Message: " ++ userMsg else msg
    let s := Stacktrace resolve (some err)
    if s ≠ "" then msg ++ "\n\n" ++ s else msg

/-- Function `Location(e)` (part_010:10-20): the file and line of the
first frame of the error's stack, or ("", 0) when there is no stack or
the first frame is unresolvable. -/
def Location (resolve : Resolver) (e : Option Err) : String × Int :=
  match Stack e with
  | some (fp :: _) =>
    match resolve fp with
    | some (_, file, line) => (file, line)
    | none => ("", 0)
  | _ => ("", 0)

/-! ## Cause-skipping value lookup of the final v2 revision -/

/-- Modelled from the spec: `Value` of the final v2 errors.go, which is
absent from src (the part_011 revision of `Value` predates
`errWithCause` and reaches a cause once the primary chain is
exhausted, contradicting the final v2 test in src/v2/errors_test.go
"will not search the cause chain").  Per the spec, "Causal chains are
not traversed by ordinary value lookup": the walk checks annotation
nodes, steps over a causal link to its wrapped (primary) error without
entering the cause, and falls back to plain unwrapping for foreign
errors. -/
def valueSpec : Err → Key → Option Val
  | .withValue e k v, key => if k = key then some v else valueSpec e key
  | .withCause e _, key => valueSpec e key
  | .unwrapper e, key => valueSpec e key
  | .base _ _ _, _ => none

/-- Primary chain of an error: the error with every causal link removed
(each `errWithCause` node replaced by its wrapped error).  Used to state
that ordinary value lookup never depends on causes. -/
def pruneCauses : Err → Err
  | .base t i m => .base t i m
  | .withValue e k v => .withValue (pruneCauses e) k v
  | .withCause e _ => pruneCauses e
  | .unwrapper e => .unwrapper (pruneCauses e)

/-! ## The v1.5 revision (src/impl.go, src/chainable_api.go)

The named files src/impl.go and src/chainable_api.go are the v1.5
revision of the v1 package: the node type is `merryErr` (the same
struct as `errImpl`/`errWithValue`), the cause is an ordinary
annotation under `errKeyCause`, and `merryErr.Error` composes the
message with the cause's message.  The v1.5 errors.go, which defined
the `Message`/`UserMessage`/`Cause`/`Value` helpers that
`merryErr.Error` calls, is absent from src (the present src/errors.go
is the later errImpl revision, whose interface-dispatching `Cause`
would mutually recurse with `merryErr.Cause`), so those helpers are
modelled from the spec below.  The `verbose` global is modelled at its
default, false (per part_000, `SetVerboseDefault` no longer has any
effect and `Error()` always just returns the error's message), so the
`Details` branch of `merryErr.Error` is dead and omitted. -/

/-- Modelled from the spec: v1.5 `Value(e, key)` (the v1.5 errors.go is
absent from src).  Per the spec's value-lookup contract, a forward
(innermost-first) linear scan of the library's own nodes where the
nearest node wins; the v1.5 revision predates unwrap interop, so the
scan stops at the first foreign error. -/
def valueV1 : Err → Key → Option Val
  | .withValue e k v, key => if k = key then some v else valueV1 e key
  | _, _ => none

/-- Modelled from the spec: v1.5 `Unwrap(e)`, the innermost underlying
error (the chain's terminal node; compare the later revision at
src/errors.go:260-276, which strips all library nodes the same way). -/
def unwrapV1 : Err → Err
  | .withValue e _ _ => unwrapV1 e
  | e => e

/-- Modelled from the spec: v1.5 `Message(e)`.  Per the spec's `Error()`
contract ("if this node's key is the designated message key, return the
stored string value; otherwise delegate recursively to the wrapped
error's Error()"): the nearest message annotation string wins, and
without one the terminal error's own message is returned. -/
def messageV1 (e : Err) : String :=
  let m := match valueV1 e .message with
           | some (.str s) => s
           | _ => ""
  if m = "" then errorStr (unwrapV1 e) else m

/-- Modelled from the spec: v1.5 `UserMessage(e)`: the nearest
user-message annotation string, "" when unset. -/
def userMessageV1 (e : Err) : String :=
  match valueV1 e .userMessage with
  | some (.str s) => s
  | _ => ""

/-- Modelled from the spec: v1.5 `Cause(e)`: the nearest cause
annotation ("the old cause might still be reachable via explicit lookup
of the cause value itself on the node that set it"); nil when unset or
when the stored value is not an error. -/
def causeV1 (e : Err) : Option Err :=
  match valueV1 e .cause with
  | some (.errv c) => some c
  | _ => none

lemma valueV1_vsize_lt :
    ∀ (e : Err) (k : Key) (v : Val), valueV1 e k = some v → vsize v < esize e
  | .base _ _ _, _, _, h => by simp [valueV1] at h
  | .withValue e key val, k, v, h => by
    rw [valueV1] at h
    by_cases hk : key = k
    · rw [if_pos hk] at h
      cases h
      simp [esize]
      omega
    · rw [if_neg hk] at h
      have := valueV1_vsize_lt e k v h
      simp [esize]
      omega
  | .withCause _ _, _, _, h => by simp [valueV1] at h
  | .unwrapper _, _, _, h => by simp [valueV1] at h

lemma causeV1_esize_lt {e c : Err} (h : causeV1 e = some c) :
    esize c < esize e := by
  rw [causeV1] at h
  rcases hv : valueV1 e Key.cause with _ | v
  · rw [hv] at h; simp at h
  · rw [hv] at h
    have hlt := valueV1_vsize_lt e .cause v hv
    cases v <;> simp at h
    subst h
    simp [vsize] at hlt
    omega

/-- Method `merryErr.Error` (src/impl.go:62-77) with `verbose` at its
default false: the message (falling back to the user message when
empty), then, if a cause is attached anywhere in the chain and its own
rendered message is non-empty, ": " and the cause's rendered message. -/
def errorV1 (e : Err) : String :=
  let m := messageV1 e
  let m := if m = "" then userMessageV1 e else m
  match h : causeV1 e with
  | some c =>
    let ce := errorV1 c
    if ce ≠ "" then m ++ ": " ++ ce else m
  | none => m
termination_by esize e
decreasing_by exact causeV1_esize_lt h

/-- Method `merryErr.WithValue(key, value)` (src/chainable_api.go:30-39):
wrap the receiver in a new annotation node; nil receiver propagates. -/
def withValueM (e : Option Err) (key : Key) (value : Val) : Option Err :=
  match e with
  | none => none
  | some e => some (.withValue e key value)

/-- Method `merryErr.WithCause(err)` (src/chainable_api.go:123-130): the
receiver annotated with `err` as its cause under the cause key; returns
the receiver unchanged if either is nil. -/
def withCauseM (e : Option Err) (cause : Option Err) : Option Err :=
  match e, cause with
  | none, _ => none
  | some e, none => some e
  | some e, some c => withValueM (some e) .cause (.errv c)

/-- Function `New(msg)` of v1 (src/errors.go:41-44) under the default
configuration (stack capture enabled, no pre-existing stack on a fresh
`errors.New`): `captureStack` (src/errors.go:283-305) attaches the
captured frames as a stack-keyed node over the fresh terminal error. -/
def newV1 (curStack : List Nat) (id : Nat) (msg : String) : Err :=
  .withValue (.base 0 id msg) .stack (.stack curStack)

/-! ## The C1 scenario chain

The chain mirrors the cause-override scenario of the v2 tests
(src/v2/errors_test.go TestIs/TestAs): a root cause with its own
dynamic type and stack, an outer error with that cause attached, a
user-message wrap, and finally a second cause attached on top. -/

/-- Root cause `errors.New`-style error of its own dynamic type 1
(so that `errors.As` can target exactly its type). -/
def rcC1 (rm : String) : Err := .base 1 1 rm

/-- Result of `Wrap(rootCause)`: the root cause with a captured stack. -/
def rc1C1 (rm : String) (s1 : List Nat) : Err :=
  .withValue (rcC1 rm) .stack (.stack s1)

/-- Result of `New(fm, WithCause(rootCause1))`: the cause wrapper.  No
stack node is added, because `HasStack` reaches the cause's stack. -/
def oeC1 (rm fm : String) (s1 : List Nat) : Err :=
  .withCause (.base 0 2 fm) (rc1C1 rm s1)

/-- Result of `Wrap(outererr, WithUserMessage(um))`. -/
def oe1C1 (rm fm um : String) (s1 : List Nat) : Err :=
  .withValue (oeC1 rm fm s1) .userMessage (.str um)

/-- The second cause, itself carrying an annotation (its ancestry). -/
def ncC1 (nm : String) (cd : Int) : Err :=
  .withValue (.base 0 3 nm) .httpCode (.int cd)

/-- Result of `Wrap(outererr1, WithCause(newCause))`: once the new cause
supersedes the old one, `HasStack` no longer reaches the old cause's
stack, so a fresh stack is captured on top. -/
def finC1 (rm fm um nm : String) (cd : Int) (s1 s3 : List Nat) : Err :=
  .withValue (.withCause (oe1C1 rm fm um s1) (ncC1 nm cd)) .stack (.stack s3)

/-! ## General lemmas about the identity search -/

lemma methodIs_esize_lt :
    ∀ (e t : Err), methodIs e t = true → esize t < esize e
  | .base _ _ _, _, h => by simp [methodIs] at h
  | .withValue _ _ _, _, h => by simp [methodIs] at h
  | .unwrapper _, _, h => by simp [methodIs] at h
  | .withCause (.base b i m) c, t, h => by
    simp [methodIs] at h
    subst h
    have := esize_pos c
    simp only [esize]
    omega
  | .withCause (.withValue e k v) c, t, h => by
    simp [methodIs] at h
    subst h
    have := esize_pos c
    simp only [esize]
    omega
  | .withCause (.unwrapper e) c, t, h => by
    simp [methodIs] at h
    subst h
    have := esize_pos c
    simp only [esize]
    omega
  | .withCause (.withCause e' c') c, t, h => by
    rw [methodIs] at h
    by_cases he : (Err.withCause e' c') = t
    · subst he
      have := esize_pos c
      simp only [esize]
      omega
    · rw [if_neg he] at h
      have h1 := methodIs_esize_lt (.withCause e' c') t h
      have h2 := esize_pos c
      simp only [esize] at h1 ⊢
      omega

/-- Everything found by `errors.Is` is at most as large as the error
searched: the search only ever visits wrapped components (and re-bundled
cause carriers) of the original error. -/
lemma goIs_esize_le (n : Nat) :
    ∀ (e t : Err), esize e ≤ n → goIs e t = true → esize t ≤ esize e := by
  induction n with
  | zero =>
    intro e t hle
    have := esize_pos e
    omega
  | succ n ih =>
    intro e t hle h
    rw [goIs] at h
    by_cases he : e = t
    · subst he; omega
    · rw [if_neg he] at h
      by_cases hm : methodIs e t = true
      · have := methodIs_esize_lt e t hm
        omega
      · rw [if_neg hm] at h
        rcases hu : unwrapOne e with _ | u
        · rw [hu] at h
          simp at h
        · rw [hu] at h
          simp only [] at h
          have hlt := unwrapOne_esize_lt hu
          have := ih u t (by omega) h
          omega

/-- An `errWithCause` node `Is`-matches its cause: the unwrap walk
carries the latest cause down the wrapped chain and ends at the cause
itself. -/
lemma goIs_withCause_cause (n : Nat) :
    ∀ (x c : Err), esize x ≤ n → goIs (.withCause x c) c = true := by
  induction n with
  | zero =>
    intro x c hle
    have := esize_pos x
    omega
  | succ n ih =>
    intro x c hle
    rw [goIs]
    by_cases he : (Err.withCause x c) = c
    · rw [if_pos he]
    · rw [if_neg he]
      by_cases hm : methodIs (.withCause x c) c = true
      · rw [if_pos hm]
      · rw [if_neg hm]
        rcases hf : unwrapFlat (stripCauses x) with _ | m
        · have hu : unwrapOne (.withCause x c) = some c := by
            rw [unwrapOne, hf]
          rw [hu]
          simp only []
          rw [goIs]
          simp
        · have hu : unwrapOne (.withCause x c) = some (.withCause m c) := by
            rw [unwrapOne, hf]
          rw [hu]
          simp only []
          have h1 : esize m < esize (stripCauses x) := unwrapFlat_esize_lt hf
          have h2 := stripCauses_esize_le x
          exact ih m c (by omega)

/-- A target strictly larger than the error searched is never matched. -/
lemma goIs_false_of_esize_lt {e t : Err} (h : esize e < esize t) :
    goIs e t = false := by
  rcases hg : goIs e t with _ | _
  · rfl
  · have := goIs_esize_le (esize e) e t le_rfl hg
    omega

lemma methodIs_self (e c : Err) : methodIs (.withCause e c) e = true := by
  cases e <;> simp [methodIs]

lemma valueLoop_base (t i : Nat) (m : String) (k : Key) :
    valueLoop (.base t i m) k = none := by
  rw [valueLoop]
  · simp [unwrapOne]
  · simp

lemma valueLoop_withValue (e : Err) (k' : Key) (v : Val) (k : Key) :
    valueLoop (.withValue e k' v) k = if k' = k then some v else valueLoop e k := by
  rw [valueLoop]

lemma valueSpec_pruneCauses :
    ∀ (e : Err) (k : Key), valueSpec e k = valueSpec (pruneCauses e) k
  | .base _ _ _, _ => rfl
  | .withValue e key v, k => by
    simp [valueSpec, pruneCauses, valueSpec_pruneCauses e k]
  | .withCause e c, k => by
    simp [valueSpec, pruneCauses, valueSpec_pruneCauses e k]
  | .unwrapper e, k => by
    simp [valueSpec, pruneCauses, valueSpec_pruneCauses e k]

/-! ## Claim theorems -/

/-- C2: for every pair of non-nil errors `e1`, `e2`, attaching `e2` as the
cause of `e1` yields `e3 = errWithCause{err: e1, cause: e2}`, and
`errors.Is(e3, e1)` and `errors.Is(e3, e2)` both hold — an error
identity-matches its wrapped ancestor and everything in its attached
cause's chain — while `errors.Is(e1, e3)` fails: a plain error never
matches an error that wraps it. -/
theorem C2_causal_search (e1 e2 : Err) :
    WithCause e2 (some e1) = some (.withCause e1 e2) ∧
    goIs (.withCause e1 e2) e1 = true ∧
    goIs (.withCause e1 e2) e2 = true ∧
    goIs e1 (.withCause e1 e2) = false := by
  refine ⟨rfl, ?_, ?_, ?_⟩
  · rw [goIs]
    by_cases he : (Err.withCause e1 e2) = e1
    · rw [if_pos he]
    · rw [if_neg he]
      simp [methodIs_self]
  · exact goIs_withCause_cause (esize e1) e1 e2 le_rfl
  · apply goIs_false_of_esize_lt
    have := esize_pos e2
    simp only [esize]
    omega

/-- C3: for every chain `e` and key `k`, attaching value `a` and then
value `b` for the same key makes `Value` return `b` (the nearest, newest
annotation wins in the forward innermost-first scan), while the older
value `a` is still present in the chain: looking up from the inner node
still finds it. -/
theorem C3_value_shadowing (e : Err) (k : Key) (a b : Val) :
    Value (Set (Set (some e) k a) k b) k = some b ∧
    Value (Set (some e) k a) k = some a := by
  constructor <;> simp [Set, Value, valueLoop]

/-- C5: every construction and annotation function short-circuits on nil
input — `Wrap(nil, ...)`, `Set(nil, ...)` and the
`WithValue`/`WithMessage`/`WithUserMessage`/`WithHTTPCode`/`WithCause`
wrappers applied to nil all return nil — and every query function on nil
returns its documented zero value: `Value` nil, `Values` nil, `Details`
"", `Stack` nil, `HasStack` false, `HTTPCode` 200.  All of these
operations are total functions of the model: none can fail or return an
error of its own. -/
theorem C5_nil_short_circuit (cfg : Config) (hooks : List Wrapper)
    (s : List Nat) (ws : List Wrapper) (k : Key) (v : Val) (msg : String)
    (code : Int) (c : Err) (resolve : Resolver) :
    Wrap cfg hooks s none ws = none ∧
    Set none k v = none ∧
    WithValue k v none = none ∧
    WithMessage msg none = none ∧
    WithUserMessage msg none = none ∧
    WithHTTPCode code none = none ∧
    WithCause c none = none ∧
    Value none k = none ∧
    Values none = [] ∧
    Details resolve none = "" ∧
    Stack none = none ∧
    HasStack none = false ∧
    HTTPCode none = 200 :=
  ⟨rfl, rfl, rfl, rfl, rfl, rfl, rfl, rfl, rfl, rfl, rfl, rfl, rfl⟩

lemma wrap_nohooks (cfg : Config) (s : List Nat) (e : Option Err) :
    Wrap cfg [] s e [] = captureStack cfg s e false := by
  cases e <;> simp [Wrap, apply, captureStack]

lemma captureStack_noop {cfg : Config} {e : Err} (s : List Nat)
    (h : ¬cfg.captureStacks = true ∨ hasStackLoop e = true) :
    captureStack cfg s (some e) false = some e := by
  simp only [captureStack]
  rw [if_pos ⟨by simp, h⟩]

lemma captureStack_captures {cfg : Config} {e : Err} (s : List Nat)
    (hcap : cfg.captureStacks = true) (hst : hasStackLoop e = false) :
    captureStack cfg s (some e) false =
      some (.withValue e .stack (.stack s)) := by
  simp only [captureStack]
  rw [if_neg (by simp [hcap, hst])]
  rfl

lemma hasStackLoop_stackNode (e : Err) (v : Val) :
    hasStackLoop (.withValue e .stack v) = true := by
  rw [hasStackLoop]
  simp

lemma hasStackLoop_base (t i : Nat) (m : String) :
    hasStackLoop (.base t i m) = false := by
  rw [hasStackLoop]
  · simp [unwrapOne]
  · simp

/-- C4: with no hooks and no annotators, wrapping is idempotent: the
second `Wrap` returns the very node the first one returned (in
particular, when the error already carries a stack annotation, `Wrap`
returns its argument unchanged and performs no work), so the recorded
source location never moves: `Location(Wrap(e)) ==
Location(Wrap(Wrap(e)))`. -/
theorem C4_wrap_idempotent (cfg : Config) (s s' : List Nat) (e : Err)
    (resolve : Resolver) :
    Wrap cfg [] s' (Wrap cfg [] s (some e) []) [] = Wrap cfg [] s (some e) [] ∧
    Location resolve (Wrap cfg [] s' (Wrap cfg [] s (some e) []) []) =
      Location resolve (Wrap cfg [] s (some e) []) ∧
    (hasStackLoop e = true → Wrap cfg [] s (some e) [] = some e) := by
  have hmain : Wrap cfg [] s' (Wrap cfg [] s (some e) []) [] =
      Wrap cfg [] s (some e) [] := by
    rw [wrap_nohooks cfg s (some e)]
    by_cases hc : ¬cfg.captureStacks = true ∨ hasStackLoop e = true
    · rw [captureStack_noop s hc, wrap_nohooks, captureStack_noop s' hc]
    · push_neg at hc
      rw [captureStack_captures s (by simpa using hc.1) (by simpa using hc.2),
        wrap_nohooks,
        captureStack_noop s' (Or.inr (hasStackLoop_stackNode e _))]
  refine ⟨hmain, by rw [hmain], ?_⟩
  intro hst
  rw [wrap_nohooks, captureStack_noop s (Or.inr hst)]

/-- C4 witness: a concrete already-stacked error is returned unchanged by
`Wrap`, at a pointed instance of the idempotence theorem. -/
theorem C4_wrap_idempotent_witness :
    Wrap ⟨true⟩ [] [2] (some (.withValue (.base 0 0 "boom") .stack (.stack [1]))) [] =
      some (.withValue (.base 0 0 "boom") .stack (.stack [1])) :=
  (C4_wrap_idempotent ⟨true⟩ [2] [3]
      (.withValue (.base 0 0 "boom") .stack (.stack [1])) (fun _ => none)).2.2
    (hasStackLoop_stackNode (.base 0 0 "boom") (.stack [1]))

/-- C8: automatic stack capture is governed by the pre-existing-stack
check and the global flag: with capture enabled and no pre-existing
stack, `HasStack(Wrap(e))` is true; with capture disabled, `New`
produces an error whose `Stack` is nil; after re-enabling, `New` yields
exactly the (non-empty) captured frames. -/
theorem C8_stack_capture_policy (cfg : Config) (s sx sy : List Nat)
    (e : Err) (x y : String) (idx idy : Nat)
    (hcap : cfg.captureStacks = true) (hst : hasStackLoop e = false)
    (hsy : sy ≠ []) :
    HasStack (Wrap cfg [] s (some e) []) = true ∧
    Stack (New ⟨false⟩ [] sx idx x []) = none ∧
    Stack (New ⟨true⟩ [] sy idy y []) = some sy ∧ sy ≠ [] := by
  refine ⟨?_, ?_, ?_, hsy⟩
  · rw [wrap_nohooks, captureStack_captures s hcap hst]
    simp [HasStack, hasStackLoop_stackNode]
  · have h1 : New ⟨false⟩ [] sx idx x [] = some (.base 0 idx x) := by
      rw [New, wrap_nohooks, captureStack_noop sx (Or.inl (by simp))]
    rw [h1]
    simp [Stack, Value]
    rw [valueLoop]
    · simp [unwrapOne]
    · simp
  · have h1 : New ⟨true⟩ [] sy idy y [] =
        some (.withValue (.base 0 idy y) .stack (.stack sy)) := by
      rw [New, wrap_nohooks,
        captureStack_captures sy rfl (hasStackLoop_base 0 idy y)]
    rw [h1]
    simp [Stack, Value, valueLoop]

/-- C8 witness: the stack-capture policy theorem at a concrete error,
capture stack, and flag settings. -/
theorem C8_stack_capture_policy_witness :
    HasStack (Wrap ⟨true⟩ [] [5] (some (.base 0 0 "boom")) []) = true ∧
    Stack (New ⟨false⟩ [] [] 1 "x" []) = none ∧
    Stack (New ⟨true⟩ [] [7] 2 "y" []) = some [7] ∧ ([7] : List Nat) ≠ [] :=
  C8_stack_capture_policy ⟨true⟩ [5] [] [7] (.base 0 0 "boom") "x" "y" 1 2
    rfl (hasStackLoop_base 0 0 "boom") (by decide)

/-- C10: wrapping a non-nil error with the `NoCaptureStack` annotator
attaches a stack-keyed node whose value is (untyped) nil — the automatic
capture stage then sees a chain that already has a stack and does
nothing — so afterwards `HasStack` is true while `Stack` is nil, and any
later `Wrap` performs no automatic stack capture and returns the node
unchanged. -/
theorem C10_no_capture_stack (cfg : Config) (s s' : List Nat) (e : Err) :
    Wrap cfg [] s (some e) [NoCaptureStack] =
      some (.withValue e .stack .vnil) ∧
    HasStack (some (.withValue e .stack .vnil)) = true ∧
    Stack (some (.withValue e .stack .vnil)) = none ∧
    Wrap cfg [] s' (some (.withValue e .stack .vnil)) [] =
      some (.withValue e .stack .vnil) := by
  refine ⟨?_, ?_, ?_, ?_⟩
  · rw [Wrap, apply]
    simp only [List.foldl, if_true]
    have h1 : NoCaptureStack (some e) = some (.withValue e .stack .vnil) := rfl
    rw [h1]
    exact captureStack_noop s (Or.inr (hasStackLoop_stackNode e _))
  · simp [HasStack, hasStackLoop_stackNode]
  · simp [Stack, Value, valueLoop]
  · rw [wrap_nohooks,
      captureStack_noop s' (Or.inr (hasStackLoop_stackNode e _))]

/-- C1: attaching two causes in sequence makes `errors.Is` and
`errors.As` search only the most-recently-attached cause's chain.  The
conjuncts state: (1)-(4) the chain pieces are exactly what
`Wrap`/`New` build; (5) before the second cause is attached, `Is`
reaches the first cause's chain (`rc1`) and its root (`rc`), and `As`
finds the node of the root cause's type; (6) the final error `Is` the
new cause and its ancestry; (7) `Is` against the first cause's chain and
root now fails, and `As` against the root cause's type now fails: the
shadowed cause is unreachable. -/
theorem C1_latest_cause_only (rm fm um nm : String) (cd : Int)
    (s1 s2 s3 s4 : List Nat) :
    (Wrap ⟨true⟩ [] s1 (some (rcC1 rm)) [] = some (rc1C1 rm s1) ∧
      New ⟨true⟩ [] s2 2 fm [WithCause (rc1C1 rm s1)] = some (oeC1 rm fm s1) ∧
      Wrap ⟨true⟩ [] s4 (some (oeC1 rm fm s1)) [WithUserMessage um] =
        some (oe1C1 rm fm um s1) ∧
      Wrap ⟨true⟩ [] s3 (some (oe1C1 rm fm um s1)) [WithCause (ncC1 nm cd)] =
        some (finC1 rm fm um nm cd s1 s3)) ∧
    (goIs (oe1C1 rm fm um s1) (rc1C1 rm s1) = true ∧
      goIs (oe1C1 rm fm um s1) (rcC1 rm) = true ∧
      goAs (oe1C1 rm fm um s1) (.goerr 1) = some (rcC1 rm)) ∧
    (goIs (finC1 rm fm um nm cd s1 s3) (ncC1 nm cd) = true ∧
      goIs (finC1 rm fm um nm cd s1 s3) (.base 0 3 nm) = true) ∧
    (goIs (finC1 rm fm um nm cd s1 s3) (rc1C1 rm s1) = false ∧
      goIs (finC1 rm fm um nm cd s1 s3) (rcC1 rm) = false ∧
      goAs (finC1 rm fm um nm cd s1 s3) (.goerr 1) = none) := by
  refine ⟨⟨?_, ?_, ?_, ?_⟩, ⟨?_, ?_, ?_⟩, ⟨?_, ?_⟩, ⟨?_, ?_, ?_⟩⟩
  · rw [wrap_nohooks, rcC1,
      captureStack_captures s1 rfl (hasStackLoop_base 1 1 rm)]
    rfl
  · rw [New, Wrap, apply]
    simp only [List.foldl, if_true]
    have h1 : WithCause (rc1C1 rm s1) (some (.base 0 2 fm)) =
        some (oeC1 rm fm s1) := rfl
    rw [h1]
    apply captureStack_noop
    right
    rw [hasStackLoop]
    · simp [oeC1, unwrapOne, stripCauses, unwrapFlat, rc1C1,
        hasStackLoop_stackNode]
    · simp [oeC1]
  · rw [Wrap, apply]
    simp only [List.foldl, if_true]
    have h1 : WithUserMessage um (some (oeC1 rm fm s1)) =
        some (oe1C1 rm fm um s1) := rfl
    rw [h1]
    apply captureStack_noop
    right
    rw [oe1C1, hasStackLoop]
    simp
    rw [hasStackLoop]
    · simp [oeC1, unwrapOne, stripCauses, unwrapFlat, rc1C1,
        hasStackLoop_stackNode]
    · simp [oeC1]
  · rw [Wrap, apply]
    simp only [List.foldl, if_true]
    have h1 : WithCause (ncC1 nm cd) (some (oe1C1 rm fm um s1)) =
        some (.withCause (oe1C1 rm fm um s1) (ncC1 nm cd)) := rfl
    rw [h1]
    have h2 : hasStackLoop (.withCause (oe1C1 rm fm um s1) (ncC1 nm cd)) =
        false := by
      simp [hasStackLoop, unwrapOne, stripCauses, unwrapFlat, oe1C1, oeC1,
        ncC1, rc1C1]
    rw [captureStack_captures s3 rfl h2]
    rfl
  · simp [oe1C1, oeC1, rc1C1, rcC1, goIs, methodIs, unwrapOne, unwrapFlat,
      stripCauses]
  · simp [oe1C1, oeC1, rc1C1, rcC1, goIs, methodIs, unwrapOne, unwrapFlat,
      stripCauses]
  · simp [oe1C1, oeC1, rc1C1, rcC1, goAs, methodAs, tyOf, unwrapOne,
      unwrapFlat, stripCauses]
  · simp [finC1, oe1C1, oeC1, rc1C1, rcC1, ncC1, goIs, methodIs, unwrapOne,
      unwrapFlat, stripCauses]
  · simp [finC1, oe1C1, oeC1, rc1C1, rcC1, ncC1, goIs, methodIs, unwrapOne,
      unwrapFlat, stripCauses]
  · simp [finC1, oe1C1, oeC1, rc1C1, rcC1, ncC1, goIs, methodIs, unwrapOne,
      unwrapFlat, stripCauses]
  · simp [finC1, oe1C1, oeC1, rc1C1, rcC1, ncC1, goIs, methodIs, unwrapOne,
      unwrapFlat, stripCauses]
  · simp [finC1, oe1C1, oeC1, rc1C1, rcC1, ncC1, goAs, methodAs, tyOf,
      unwrapOne, unwrapFlat, stripCauses]

/-- C6: under the v1.5 chainable API, attaching a cause makes `Error()`
render the node's own message, then ": ", then the cause's rendered
message: `New(a).WithCause(New(b)).Error() == a ++ ": " ++ b` (for a
cause whose rendered message is non-empty; an empty cause message is
skipped by `merryErr.Error`). -/
theorem C6_error_message_composition (a b : String) (s1 s2 : List Nat)
    (i1 i2 : Nat) (hb : b ≠ "") :
    withCauseM (some (newV1 s1 i1 a)) (some (newV1 s2 i2 b)) =
      some (.withValue (newV1 s1 i1 a) .cause (.errv (newV1 s2 i2 b))) ∧
    errorV1 (.withValue (newV1 s1 i1 a) .cause (.errv (newV1 s2 i2 b))) =
      a ++ ": " ++ b := by
  refine ⟨rfl, ?_⟩
  have hcb : errorV1 (.withValue (.base 0 i2 b) .stack (.stack s2)) = b := by
    rw [errorV1]
    simp [causeV1, valueV1, messageV1, unwrapV1, errorStr, hb]
  rw [errorV1]
  simp only [newV1, causeV1, valueV1, messageV1, userMessageV1, unwrapV1,
    errorStr]
  simp [hcb, hb]
  by_cases ha : a = ""
  · simp [ha]
  · simp [ha]

/-- C6 witness: the concrete spec example, `New("a").WithCause(New("b"))`
renders as "a: b". -/
theorem C6_error_message_composition_witness :
    withCauseM (some (newV1 [] 0 "a")) (some (newV1 [] 1 "b")) =
      some (.withValue (newV1 [] 0 "a") .cause (.errv (newV1 [] 1 "b"))) ∧
    errorV1 (.withValue (newV1 [] 0 "a") .cause (.errv (newV1 [] 1 "b"))) =
      "a" ++ ": " ++ "b" :=
  C6_error_message_composition "a" "b" [] [] 0 1 (by decide)

/-- C7: ordinary value lookup does not traverse the causal chain: its
result only depends on the primary chain (pruning every causal link
changes nothing), and in the test scenario — a value attached under a
user key only inside the cause of `New(w, WithCause(New(y,
WithValue(ck, cv))))` — lookup of that key reports not-found. -/
theorem C7_value_skips_causes (e : Err) (k : Key) (w y ck : String)
    (cv : Val) (i1 i2 : Nat) (s2 : List Nat) :
    valueSpec e k = valueSpec (pruneCauses e) k ∧
    valueSpec
      (.withCause (.base 0 i1 w)
        (.withValue (.withValue (.base 0 i2 y) (.user ck) cv) .stack
          (.stack s2)))
      (.user ck) = none := by
  constructor
  · exact valueSpec_pruneCauses e k
  · simp [valueSpec]

/-- C9: `Details(New("bang"))` renders the top message on its own first
line (the rendering is "bang" either alone or followed directly by a
newline) and contains, verbatim, the text returned by `Stacktrace` on
the same error; `Details` of nil renders the empty string. -/
theorem C9_details_rendering (resolve : Resolver) (cfg : Config)
    (s : List Nat) (id : Nat) :
    (∃ rest, Details resolve (New cfg [] s id "bang" []) = "bang" ++ rest ∧
      (rest = "" ∨ ∃ r2, rest = "\n" ++ r2)) ∧
    (∃ pre post, Details resolve (New cfg [] s id "bang" []) =
      pre ++ Stacktrace resolve (New cfg [] s id "bang" []) ++ post) ∧
    Details resolve none = "" := by
  rcases cfg with ⟨cap⟩
  cases cap
  · have h1 : New ⟨false⟩ [] s id "bang" [] = some (.base 0 id "bang") := by
      rw [New, wrap_nohooks, captureStack_noop s (Or.inl (by simp))]
    rw [h1]
    have hst : Stacktrace resolve (some (.base 0 id "bang")) = "" := by
      simp [Stacktrace, Stack, Value, valueLoop_base]
    have hD : Details resolve (some (.base 0 id "bang")) = "bang" := by
      simp [Details, Message, errorStr, UserMessage, Value, valueLoop_base,
        hst]
    rw [hD, hst]
    exact ⟨⟨"", by simp⟩, ⟨"bang", "", by simp⟩, rfl⟩
  · have h1 : New ⟨true⟩ [] s id "bang" [] =
        some (.withValue (.base 0 id "bang") .stack (.stack s)) := by
      rw [New, wrap_nohooks,
        captureStack_captures s rfl (hasStackLoop_base 0 id "bang")]
    rw [h1]
    have hmsg :
        Message (some (.withValue (.base 0 id "bang") .stack (.stack s))) =
          "bang" := by
      simp [Message, errorStr]
    have hum :
        UserMessage
          (some (.withValue (.base 0 id "bang") .stack (.stack s))) = "" := by
      simp [UserMessage, Value, valueLoop_withValue, valueLoop_base]
    by_cases hst :
        Stacktrace resolve
          (some (.withValue (.base 0 id "bang") .stack (.stack s))) = ""
    · have hD :
          Details resolve
            (some (.withValue (.base 0 id "bang") .stack (.stack s))) =
            "bang" := by
        rw [Details]
        simp [hmsg, hum, hst]
      rw [hD, hst]
      exact ⟨⟨"", by simp⟩, ⟨"bang", "", by simp⟩, rfl⟩
    · have hD :
          Details resolve
            (some (.withValue (.base 0 id "bang") .stack (.stack s))) =
            "bang" ++ "\n\n" ++
              Stacktrace resolve
                (some (.withValue (.base 0 id "bang") .stack (.stack s))) := by
        rw [Details]
        simp [hmsg, hum, hst]

      rw [hD]
      refine ⟨⟨"\n\n" ++ Stacktrace resolve
          (some (.withValue (.base 0 id "bang") .stack (.stack s))), ?_, ?_⟩,
        ⟨"bang" ++ "\n\n", "", ?_⟩, rfl⟩
      · exact String.append_assoc "bang" "\n\n" _
      · right
        exact ⟨"\n" ++ Stacktrace resolve
            (some (.withValue (.base 0 id "bang") .stack (.stack s))),
          String.append_assoc "\n" "\n" _⟩
      · rw [String.append_empty]

end Merry
